import Mathlib

/-!
# Verification of the upload → validate → process → preview → download pipeline

Shallow embedding of `src/components/image-uploader.tsx` (the `ImageUploader`
component of the Re-Thing repository).  The React component's state hooks
become fields of an explicit `PipelineState`; each handler of the source
becomes a state-transformer function; the asynchronous parts (the
`FileReader` callbacks and the settlement of the `removeBackground` promise)
become separate events of an event-driven step relation, mirroring the
single-threaded event-loop semantics of the browser.

Object URLs (`URL.createObjectURL` / `URL.revokeObjectURL`) are modelled as
pairs `(id, blob)` with a fresh-id counter; the embedding instruments
revocation with a `doubleRevoke` flag so that idempotence of release is a
provable statement.
-/

set_option autoImplicit false

namespace ImageUploader

/-- A candidate file descriptor: declared MIME type, byte size, name
(the fields of a DOM `File` consumed by the component). -/
structure FileDesc where
  type : String
  size : Nat
  name : String
deriving DecidableEq, Repr

/-- `const ALLOWED_FILE_TYPES = ["image/png", "image/jpeg", "image/webp"]`. -/
def ALLOWED_FILE_TYPES : List String := ["image/png", "image/jpeg", "image/webp"]

/-- `z.number().max(5 * 1024 * 1024)` — the size bound of `imageFileSchema`. -/
def MAX_FILE_SIZE : Nat := 5 * 1024 * 1024

/-- `imageFileSchema.parse` succeeds iff the declared type is in the enum and
the size is at most the bound (zod `enum` + `max` are non-strict `≤`). -/
def imageFileSchemaOk (f : FileDesc) : Bool :=
  ALLOWED_FILE_TYPES.contains f.type && f.size ≤ MAX_FILE_SIZE

/-- Message set on a `z.ZodError` in `validateAndProcessFile`. -/
def invalidFileMsg : String := "Please upload a valid PNG, JPG, or WEBP image (max 5MB)."

/-- Message set on a non-`ZodError` throw in `validateAndProcessFile`. -/
def malformedFileMsg : String := "Invalid file. Please try a different image."

/-- Message set by `reader.onerror`. -/
def readFailMsg : String := "Failed to read the file. Please try again."

/-- Message built in the non-abort `catch` branch of `processImage` when the
thrown value is an `Error` carrying `msg`. -/
def procFailMsg (msg : String) : String := "Failed to remove background: " ++ msg

/-- Message set when the thrown value is not an `Error` instance. -/
def procFailGenericMsg : String := "Failed to remove background. Please try again."

/-- An object URL handle: a unique id (allocation order) together with the
blob content it points to. -/
abbrev ObjectURL := Nat × String

/-- The component state: every `useState` hook and every `useRef` of the
source, plus instrumentation (allocation/revocation ledgers, a
`doubleRevoke` flag, counters of started reads and started jobs) that lets
the lifecycle claims be stated. -/
structure PipelineState where
  image : Option String := none
  processedImage : Option ObjectURL := none
  fileName : Option String := none
  fileSize : Option Nat := none
  error : Option String := none
  isProcessing : Bool := false
  progress : ℚ := 0
  originalLoaded : Bool := false
  processedLoaded : Bool := false
  processedUrlRef : Option ObjectURL := none
  abortCtrlRef : Option Nat := none
  abortedCtrls : List Nat := []
  nextCtrlId : Nat := 0
  pendingRead : Option String := none
  startedReads : Nat := 0
  startedJobs : Nat := 0
  nextUrlId : Nat := 0
  createdUrls : List ObjectURL := []
  revokedUrls : List Nat := []
  doubleRevoke : Bool := false
deriving Repr

/-- The initial state: all hooks start at `null` / `false` / `0`. -/
def init : PipelineState := {}

/-- `URL.createObjectURL(blob)`: allocates a fresh handle. -/
def createObjectURL (blob : String) (s : PipelineState) :
    ObjectURL × PipelineState :=
  let u : ObjectURL := (s.nextUrlId, blob)
  (u, { s with nextUrlId := s.nextUrlId + 1, createdUrls := u :: s.createdUrls })

/-- `URL.revokeObjectURL(u)`, instrumented: revoking an already-revoked
handle raises the `doubleRevoke` flag instead of being recorded again. -/
def revokeObjectURL (u : ObjectURL) (s : PipelineState) : PipelineState :=
  if s.revokedUrls.contains u.1 then { s with doubleRevoke := true }
  else { s with revokedUrls := u.1 :: s.revokedUrls }

/-- The object URLs allocated and not yet revoked. -/
def liveUrls (s : PipelineState) : List ObjectURL :=
  s.createdUrls.filter (fun u => ! s.revokedUrls.contains u.1)

/-- The `if (processedUrlRef.current) { URL.revokeObjectURL(...);
processedUrlRef.current = null; }` block, repeated verbatim at three places
of the source (the unmount effect, the success path of `processImage`, and
`clearImage`). -/
def releaseUrlRef (s : PipelineState) : PipelineState :=
  match s.processedUrlRef with
  | some u => { revokeObjectURL u s with processedUrlRef := none }
  | none => s

/-- The synchronous prefix of `processImage` (lines 82–93 of the source):
abort any previous controller, install a fresh one, set
`isProcessing`/`progress`/`error`/`processedLoaded`.  Returns the new
controller's id, which identifies the job.  The `imageUrl` argument is
consumed by the external `removeBackground` call and does not touch state. -/
def processImageStart (_imageUrl : String) (s : PipelineState) :
    PipelineState × Nat :=
  let s :=
    match s.abortCtrlRef with
    | some c => { s with abortedCtrls := c :: s.abortedCtrls }
    | none => s
  let c := s.nextCtrlId
  ({ s with
      abortCtrlRef := some c
      nextCtrlId := c + 1
      isProcessing := true
      progress := 0
      error := none
      processedLoaded := false
      startedJobs := s.startedJobs + 1 }, c)

/-- How the `removeBackground` promise of one invocation settles. -/
inductive LibOutcome where
  | success (blob : String)
  | abortError
  | failure (msg : String)
  | failureNonError
deriving DecidableEq, Repr

/-- The continuation of `processImage` after `await removeBackground`
settles (lines 104–127): on success revoke the previous URL if present,
allocate a new one and publish it; an `AbortError` is swallowed; another
error sets the failure message; the `finally` block always resets
`isProcessing`, `progress` and the controller ref.  The source closure never
consults `j` (the id of the job whose promise settled): no staleness check
is performed before applying the result. -/
def processImageFinish (_j : Nat) (o : LibOutcome) (s : PipelineState) :
    PipelineState :=
  let s :=
    match o with
    | .success blob =>
        let s := releaseUrlRef s
        let (url, s) := createObjectURL blob s
        { s with processedUrlRef := some url, processedImage := some url }
    | .abortError => s
    | .failure msg => { s with error := some (procFailMsg msg) }
    | .failureNonError => { s with error := some procFailGenericMsg }
  { s with isProcessing := false, progress := 0, abortCtrlRef := none }

/-- The `progress` callback passed to `removeBackground` (lines 95–98):
`setProgress((current / total) * 100)`, with no clamping. -/
def progressCallback (current total : ℚ) (s : PipelineState) : PipelineState :=
  { s with progress := current / total * 100 }

/-- The width of the progress bar (line 304 of the source):
`Math.max(4, progress)`. -/
def displayedWidth (s : PipelineState) : ℚ :=
  max 4 s.progress

/-- `validateAndProcessFile` (lines 130–163), synchronous part: parse the
schema; on success record name/size, clear the error, reset the loaded
flags and the processed image, and start the `FileReader`
(`readAsDataURL`); on a `ZodError` only set the validation message. -/
def validateAndProcessFile (f : FileDesc) (s : PipelineState) : PipelineState :=
  if imageFileSchemaOk f then
    { s with
        fileName := some f.name
        fileSize := some f.size
        error := none
        originalLoaded := false
        processedLoaded := false
        processedImage := none
        pendingRead := some f.name
        startedReads := s.startedReads + 1 }
  else
    { s with error := some invalidFileMsg }

/-- `reader.onload` (lines 147–151): publish the data URL as the original
image, then run the synchronous prefix of `processImage` on it. -/
def readerOnLoad (imageUrl : String) (s : PipelineState) :
    PipelineState × Nat :=
  processImageStart imageUrl { s with image := some imageUrl, pendingRead := none }

/-- `reader.onerror` (lines 152–154): only set the read-failure message. -/
def readerOnError (s : PipelineState) : PipelineState :=
  { s with error := some readFailMsg, pendingRead := none }

/-- `clearImage` (lines 187–206): abort any in-flight controller, revoke and
null the URL ref, reset every state hook. -/
def clearImage (s : PipelineState) : PipelineState :=
  let s :=
    match s.abortCtrlRef with
    | some c => { s with abortedCtrls := c :: s.abortedCtrls }
    | none => s
  let s := releaseUrlRef s
  { s with
      image := none
      processedImage := none
      fileName := none
      fileSize := none
      error := none
      isProcessing := false
      progress := 0
      originalLoaded := false
      processedLoaded := false }

/-- The unmount effect cleanup (lines 71–80): revoke and null the URL ref if
present. -/
def unmountCleanup (s : PipelineState) : PipelineState :=
  releaseUrlRef s

/-- The suffix of `fileName` matched by the regex `\.[^/.]+$`: a dot followed
by one or more characters none of which is a dot or a slash, at the end.
`stripExt` removes that suffix when it exists (the regex `replace` with the
empty string), and returns the name unchanged otherwise. -/
def stripExt (nm : String) : String :=
  let cs := nm.data.reverse
  let ext := cs.takeWhile (fun c => c ≠ '.' && c ≠ '/')
  match cs.drop ext.length with
  | '.' :: rest => if ext.length > 0 then String.mk rest.reverse else nm
  | _ => nm

/-- `handleDownload` (lines 208–217): a no-op when `processedImage` is null;
otherwise offers the artifact under `<baseName>.png`, where `baseName` is
the file name with its final extension stripped (or a fallback when no file
name is recorded).  The second component is the offered download file name;
component state is returned unchanged (the anchor-element dance touches only
the DOM). -/
def handleDownload (s : PipelineState) : PipelineState × Option String :=
  match s.processedImage with
  | none => (s, none)
  | some _ =>
      let baseName :=
        match s.fileName with
        | some n => stripExt n
        | none => "background-removed"
      (s, some (baseName ++ ".png"))

/-- The external events the component reacts to, in event-loop order:
a file submission (`handleFileChange`/`handleDrop` → `validateAndProcessFile`),
the `FileReader` callbacks, the settlement of one `removeBackground` promise
(tagged with the job id whose promise it is), a progress tick, the clear
button, and component unmount. -/
inductive Event where
  | submit (f : FileDesc)
  | readLoad (imageUrl : String)
  | readError
  | libResolve (j : Nat) (o : LibOutcome)
  | progressTick (current total : ℚ)
  | clear
  | unmount
deriving Repr

/-- One event-loop turn. -/
def step (s : PipelineState) (e : Event) : PipelineState :=
  match e with
  | .submit f => validateAndProcessFile f s
  | .readLoad u => (readerOnLoad u s).1
  | .readError => readerOnError s
  | .libResolve j o => processImageFinish j o s
  | .progressTick c t => progressCallback c t s
  | .clear => clearImage s
  | .unmount => unmountCleanup s

/-- Run a sequence of events from a state. -/
def run (s : PipelineState) (tr : List Event) : PipelineState :=
  tr.foldl step s

/-- Resource-manager invariant: the double-revoke flag is down, allocated ids
are below the fresh counter, and the URL ref points at exactly the live
handles (one when the ref is set, none otherwise). -/
def Inv (s : PipelineState) : Prop :=
  s.doubleRevoke = false ∧
  (∀ u ∈ s.createdUrls, u.1 < s.nextUrlId) ∧
  (∀ i ∈ s.revokedUrls, i < s.nextUrlId) ∧
  (∀ u, s.processedUrlRef = some u → liveUrls s = [u]) ∧
  (s.processedUrlRef = none → liveUrls s = [])

/-- A valid PNG file, 1000 bytes. -/
def fileA : FileDesc := { type := "image/png", size := 1000, name := "a.png" }

/-- A second valid PNG file, 2000 bytes. -/
def fileB : FileDesc := { type := "image/png", size := 2000, name := "b.png" }

/-- A GIF file: its declared type is outside the allowed enum. -/
def gifFile : FileDesc := { type := "image/gif", size := 1000, name := "anim.gif" }

/-- A JPEG submission that reads and processes to completion. -/
def successTrace : List Event :=
  [.submit { type := "image/jpeg", size := 1000, name := "photo.jpg" },
   .readLoad "dataPhoto", .libResolve 0 (.success "blobPhoto")]

/-- The state after one successful run. -/
def sampleSuccessState : PipelineState := run init successTrace

/-- A state holding a result artifact for `photo.jpg`. -/
def downloadReadyState : PipelineState :=
  { init with processedImage := some (0, "blob"), fileName := some "photo.jpg" }

/-- Submit `a.png`, then `b.png` while `a`'s job is in flight; `b`'s
`removeBackground` promise settles first, `a`'s settles last
(out-of-order completion racing the newer upload). -/
def c1Trace : List Event :=
  [.submit fileA, .readLoad "dataA", .submit fileB, .readLoad "dataB",
   .libResolve 1 (.success "blobB"), .libResolve 0 (.success "blobA")]

/-! ## Helper lemmas -/

lemma filter_eq_nil_mono {α : Type} {p q : α → Bool}
    (hpq : ∀ a, q a = true → p a = true) :
    ∀ {l : List α}, l.filter p = [] → l.filter q = [] := by
  intro l
  induction l with
  | nil => intro _; rfl
  | cons a l ih =>
    intro h
    rw [List.filter_cons] at h ⊢
    by_cases hp : p a = true
    · rw [if_pos hp] at h
      exact absurd h (List.cons_ne_nil _ _)
    · rw [if_neg hp] at h
      have hq : ¬ q a = true := fun hq => hp (hpq a hq)
      rw [if_neg hq]
      exact ih h

lemma filter_eq_nil_of_singleton {α : Type} {p q : α → Bool} {u : α}
    (hpq : ∀ a, q a = true → p a = true) (hu : q u = false) :
    ∀ {l : List α}, l.filter p = [u] → l.filter q = [] := by
  intro l
  induction l with
  | nil => intro h; exact absurd h (by simp)
  | cons a l ih =>
    intro h
    rw [List.filter_cons] at h ⊢
    by_cases hp : p a = true
    · rw [if_pos hp] at h
      have ha : a = u := (List.cons_eq_cons.mp h).1
      have hl : l.filter p = [] := (List.cons_eq_cons.mp h).2
      have hq : ¬ q a = true := by
        rw [ha]
        simp [hu]
      rw [if_neg hq]
      exact filter_eq_nil_mono hpq hl
    · rw [if_neg hp] at h
      have hq : ¬ q a = true := fun hq => hp (hpq a hq)
      rw [if_neg hq]
      exact ih h

lemma contains_eq_false_of_lt {r : List Nat} {n : Nat} (h : ∀ i ∈ r, i < n) :
    r.contains n = false := by
  rw [Bool.eq_false_iff]
  intro hc
  have hn : n ∈ r := by simpa using hc
  exact absurd (h n hn) (lt_irrefl n)

lemma cons_pred_imp (x : Nat) (r : List Nat) :
    ∀ a : ObjectURL, (! (x :: r).contains a.1) = true → (! r.contains a.1) = true := by
  intro a h
  simp only [List.contains_cons, Bool.not_or, Bool.and_eq_true] at h
  exact h.2

/-- `Inv` only reads the url-ledger fields; states agreeing there share it. -/
lemma inv_of_eq_fields {s t : PipelineState} (h : Inv s)
    (h1 : t.doubleRevoke = s.doubleRevoke) (h2 : t.createdUrls = s.createdUrls)
    (h3 : t.revokedUrls = s.revokedUrls) (h4 : t.nextUrlId = s.nextUrlId)
    (h5 : t.processedUrlRef = s.processedUrlRef) : Inv t := by
  unfold Inv liveUrls at h ⊢
  rw [h1, h2, h3, h4, h5]
  exact h

lemma init_inv : Inv init := by
  refine ⟨rfl, ?_, ?_, ?_, fun _ => rfl⟩
  · intro u hu; exact absurd hu (List.not_mem_nil u)
  · intro i hi; exact absurd hi (List.not_mem_nil i)
  · intro u hu; exact absurd hu (by simp [init])

/-- Explicit form of the synchronous prefix of `processImage`. -/
lemma processImageStart_eq (u : String) (s : PipelineState) :
    (processImageStart u s).1 =
      { s with
          abortedCtrls :=
            match s.abortCtrlRef with
            | some c => c :: s.abortedCtrls
            | none => s.abortedCtrls
          abortCtrlRef := some s.nextCtrlId
          nextCtrlId := s.nextCtrlId + 1
          isProcessing := true
          progress := 0
          error := none
          processedLoaded := false
          startedJobs := s.startedJobs + 1 } := by
  unfold processImageStart
  cases s.abortCtrlRef <;> rfl

/-- Explicit form of the success continuation of `processImage`. -/
lemma processImageFinish_success_eq (j : Nat) (blob : String) (s : PipelineState) :
    processImageFinish j (.success blob) s =
      { releaseUrlRef s with
          nextUrlId := (releaseUrlRef s).nextUrlId + 1
          createdUrls := ((releaseUrlRef s).nextUrlId, blob) :: (releaseUrlRef s).createdUrls
          processedUrlRef := some ((releaseUrlRef s).nextUrlId, blob)
          processedImage := some ((releaseUrlRef s).nextUrlId, blob)
          isProcessing := false
          progress := 0
          abortCtrlRef := none } := rfl

lemma liveUrls_eq_of {s t : PipelineState} (h2 : t.createdUrls = s.createdUrls)
    (h3 : t.revokedUrls = s.revokedUrls) : liveUrls t = liveUrls s := by
  unfold liveUrls
  rw [h2, h3]

/-- `clearImage` is the release block applied to the abort-adjusted state,
followed by the field resets. -/
lemma clearImage_as_release (s : PipelineState) :
    ∃ t : PipelineState,
      t.createdUrls = s.createdUrls ∧ t.revokedUrls = s.revokedUrls ∧
      t.nextUrlId = s.nextUrlId ∧ t.processedUrlRef = s.processedUrlRef ∧
      t.doubleRevoke = s.doubleRevoke ∧
      clearImage s =
        { releaseUrlRef t with
            image := none
            processedImage := none
            fileName := none
            fileSize := none
            error := none
            isProcessing := false
            progress := 0
            originalLoaded := false
            processedLoaded := false } := by
  cases habort : s.abortCtrlRef with
  | none =>
    exact ⟨s, rfl, rfl, rfl, rfl, rfl, by simp [clearImage, habort]⟩
  | some c =>
    exact ⟨{ s with abortedCtrls := c :: s.abortedCtrls }, rfl, rfl, rfl, rfl, rfl,
      by simp [clearImage, habort]⟩

/-- Releasing the URL ref keeps the invariant, empties the live set, and
leaves the allocation ledger and fresh counter alone. -/
lemma releaseUrlRef_spec {s : PipelineState} (h : Inv s) :
    Inv (releaseUrlRef s) ∧ (releaseUrlRef s).processedUrlRef = none ∧
    liveUrls (releaseUrlRef s) = [] ∧
    (releaseUrlRef s).createdUrls = s.createdUrls ∧
    (releaseUrlRef s).nextUrlId = s.nextUrlId ∧
    (releaseUrlRef s).doubleRevoke = false := by
  obtain ⟨hdr, hc, hrv, href, hnone⟩ := h
  cases hu : s.processedUrlRef with
  | none =>
    have hrel : releaseUrlRef s = s := by
      unfold releaseUrlRef
      rw [hu]
    rw [hrel]
    exact ⟨⟨hdr, hc, hrv, href, hnone⟩, hu, hnone hu, rfl, rfl, hdr⟩
  | some u =>
    have hlive : liveUrls s = [u] := href u hu
    have humem : u ∈ liveUrls s := by rw [hlive]; exact List.mem_singleton_self u
    have hfil := List.mem_filter.mp humem
    have hucreated : u ∈ s.createdUrls := hfil.1
    have hunrev : s.revokedUrls.contains u.1 = false := by
      have := hfil.2
      simpa using this
    have hunot : u.1 ∉ s.revokedUrls := by simpa using hunrev
    have hrel : releaseUrlRef s =
        { s with revokedUrls := u.1 :: s.revokedUrls, processedUrlRef := none } := by
      simp [releaseUrlRef, hu, revokeObjectURL, hunot]
    rw [hrel]
    have hub : u.1 < s.nextUrlId := hc u hucreated
    have hlive' :
        s.createdUrls.filter (fun v => ! (u.1 :: s.revokedUrls).contains v.1) = [] := by
      refine filter_eq_nil_of_singleton (cons_pred_imp u.1 s.revokedUrls) ?_ hlive
      simp [List.contains_cons]
    refine ⟨⟨hdr, hc, ?_, ?_, fun _ => hlive'⟩, rfl, hlive', rfl, rfl, hdr⟩
    · intro i hi
      rcases List.mem_cons.mp hi with hi | hi
      · rw [hi]; exact hub
      · exact hrv i hi
    · intro v hv
      exact absurd hv (by simp)

/-- The success continuation keeps the invariant: the previous handle is
released before the new one is allocated, and exactly the new handle is
live afterwards. -/
lemma finish_success_spec {s : PipelineState} (h : Inv s) (j : Nat) (blob : String) :
    Inv (processImageFinish j (.success blob) s) ∧
    liveUrls (processImageFinish j (.success blob) s) =
      [((releaseUrlRef s).nextUrlId, blob)] := by
  obtain ⟨⟨hdr, hc, hrv, _, _⟩, _, hlive, hcr, hnx, hdrr⟩ := releaseUrlRef_spec h
  rw [processImageFinish_success_eq]
  set r := releaseUrlRef s with hr
  have hfresh : r.revokedUrls.contains r.nextUrlId = false :=
    contains_eq_false_of_lt hrv
  have hlive2 :
      ((r.nextUrlId, blob) :: r.createdUrls).filter
        (fun v => ! r.revokedUrls.contains v.1) = [(r.nextUrlId, blob)] := by
    rw [List.filter_cons]
    have hp : (! r.revokedUrls.contains (r.nextUrlId, blob).1) = true := by
      show (! r.revokedUrls.contains r.nextUrlId) = true
      rw [hfresh]
      rfl
    rw [if_pos hp]
    unfold liveUrls at hlive
    rw [hlive]
  constructor
  · refine ⟨hdr, ?_, ?_, ?_, ?_⟩
    · intro u hu
      rcases List.mem_cons.mp hu with hu | hu
      · rw [hu]; exact Nat.lt_succ_self _
      · exact Nat.lt_succ_of_lt (hc u hu)
    · intro i hi
      exact Nat.lt_succ_of_lt (hrv i hi)
    · intro u hu
      have hueq : u = (r.nextUrlId, blob) := by
        have := Option.some_injective _ hu
        exact this.symm
      rw [hueq]
      unfold liveUrls
      exact hlive2
    · intro hnone
      exact absurd hnone (by simp)
  · unfold liveUrls
    exact hlive2

/-- Release does not touch the display/session fields. -/
lemma releaseUrlRef_frame (s : PipelineState) :
    (releaseUrlRef s).error = s.error ∧
    (releaseUrlRef s).isProcessing = s.isProcessing ∧
    (releaseUrlRef s).progress = s.progress ∧
    (releaseUrlRef s).image = s.image ∧
    (releaseUrlRef s).fileName = s.fileName ∧
    (releaseUrlRef s).fileSize = s.fileSize ∧
    (releaseUrlRef s).startedJobs = s.startedJobs ∧
    (releaseUrlRef s).processedImage = s.processedImage := by
  cases hp : s.processedUrlRef with
  | none => simp [releaseUrlRef, hp]
  | some u =>
    by_cases hc : u.1 ∈ s.revokedUrls <;>
      simp [releaseUrlRef, hp, revokeObjectURL, hc]

lemma releaseUrlRef_ref_none {s : PipelineState} {u : ObjectURL}
    (hu : s.processedUrlRef = some u) :
    (releaseUrlRef s).processedUrlRef = none := by
  simp [releaseUrlRef, hu]

/-- Releasing a held handle records its revocation (in both branches of the
instrumented revoke). -/
lemma mem_revoked_releaseUrlRef {s : PipelineState} {u : ObjectURL}
    (hu : s.processedUrlRef = some u) :
    u.1 ∈ (releaseUrlRef s).revokedUrls := by
  by_cases hc : u.1 ∈ s.revokedUrls <;>
    simp [releaseUrlRef, hu, revokeObjectURL, hc]

lemma inv_validate (f : FileDesc) {s : PipelineState} (h : Inv s) :
    Inv (validateAndProcessFile f s) := by
  by_cases hv : imageFileSchemaOk f <;>
    [apply inv_of_eq_fields h <;> simp [validateAndProcessFile, hv];
     apply inv_of_eq_fields h <;> simp [validateAndProcessFile, hv]]

lemma inv_start (u : String) {s : PipelineState} (h : Inv s) :
    Inv ((processImageStart u s).1) := by
  rw [processImageStart_eq]
  exact inv_of_eq_fields h rfl rfl rfl rfl rfl

lemma inv_finish (j : Nat) (o : LibOutcome) {s : PipelineState} (h : Inv s) :
    Inv (processImageFinish j o s) := by
  cases o with
  | success blob => exact (finish_success_spec h j blob).1
  | abortError => exact inv_of_eq_fields h rfl rfl rfl rfl rfl
  | failure m => exact inv_of_eq_fields h rfl rfl rfl rfl rfl
  | failureNonError => exact inv_of_eq_fields h rfl rfl rfl rfl rfl

lemma inv_clear {s : PipelineState} (h : Inv s) :
    Inv (clearImage s) ∧ liveUrls (clearImage s) = [] := by
  obtain ⟨t, hcr, hrv2, hnx, href2, hdr2, hcl⟩ := clearImage_as_release s
  have ht : Inv t := inv_of_eq_fields h hdr2 hcr hrv2 hnx href2
  obtain ⟨hti, _, htlive, _, _, _⟩ := releaseUrlRef_spec ht
  constructor
  · rw [hcl]
    exact inv_of_eq_fields hti rfl rfl rfl rfl rfl
  · rw [hcl]
    exact (liveUrls_eq_of rfl rfl).trans htlive

lemma inv_step {s : PipelineState} (h : Inv s) (e : Event) : Inv (step s e) := by
  cases e with
  | submit f => exact inv_validate f h
  | readLoad u => exact inv_start u (inv_of_eq_fields h rfl rfl rfl rfl rfl)
  | readError => exact inv_of_eq_fields h rfl rfl rfl rfl rfl
  | libResolve j o => exact inv_finish j o h
  | progressTick c t => exact inv_of_eq_fields h rfl rfl rfl rfl rfl
  | clear => exact (inv_clear h).1
  | unmount => exact (releaseUrlRef_spec h).1

lemma inv_run : ∀ (tr : List Event) (s : PipelineState), Inv s → Inv (run s tr) := by
  intro tr
  induction tr with
  | nil => intro s h; exact h
  | cons e tr ih => intro s h; exact ih (step s e) (inv_step h e)

/-! ## Claim theorems -/

/-- C1: the claim says a superseded job's late result is discarded and the
final state reflects only the newer upload.  The code disagrees: on the
trace where `b.png` is submitted while `a.png` is processing and `a`'s
promise settles last, job `a`'s controller is aborted (cancellation was
signalled), yet `a`'s blob is still applied: the final `processedImage` is
`a`'s artifact, not `b`'s.  This theorem evaluates the code at that failing
input. -/
theorem superseded_result_still_applied :
    0 ∈ (run init c1Trace).abortedCtrls ∧
    (run init c1Trace).processedImage = some (1, "blobA") ∧
    (run init c1Trace).processedImage ≠ some (0, "blobB") := by
  refine ⟨?_, rfl, ?_⟩ <;> decide

/-- C2: at every reachable state at most one object-URL resource is live
and no handle is ever revoked twice (the `doubleRevoke` instrumentation
never rises); `clearImage` and the unmount cleanup release any live
artifact; and a successful completion first releases the previous handle,
leaving exactly the freshly allocated one live. -/
theorem artifact_resource_invariant (tr : List Event) :
    (liveUrls (run init tr)).length ≤ 1 ∧
    (run init tr).doubleRevoke = false ∧
    liveUrls (clearImage (run init tr)) = [] ∧
    liveUrls (unmountCleanup (run init tr)) = [] ∧
    (∀ j blob, liveUrls (processImageFinish j (.success blob) (run init tr)) =
      [((releaseUrlRef (run init tr)).nextUrlId, blob)]) := by
  have h := inv_run tr init init_inv
  obtain ⟨hdr, hc, hrv, href, hnone⟩ := h
  refine ⟨?_, hdr, (inv_clear ⟨hdr, hc, hrv, href, hnone⟩).2,
    (releaseUrlRef_spec ⟨hdr, hc, hrv, href, hnone⟩).2.2.1,
    fun j blob => (finish_success_spec ⟨hdr, hc, hrv, href, hnone⟩ j blob).2⟩
  cases hu : (run init tr).processedUrlRef with
  | some u => rw [href u hu]; exact le_refl 1
  | none => rw [hnone hu]; exact Nat.zero_le 1

/-- C3: the validator accepts a descriptor iff its type is one of
image/png, image/jpeg, image/webp and its size is at most 5242880 bytes;
the schema-rejection message differs from the malformed-input message; and
a schema rejection reports the former. -/
theorem validator_accepts_iff (f : FileDesc) (s : PipelineState) :
    (imageFileSchemaOk f = true ↔
      ((f.type = "image/png" ∨ f.type = "image/jpeg" ∨ f.type = "image/webp") ∧
        f.size ≤ 5242880)) ∧
    invalidFileMsg ≠ malformedFileMsg ∧
    (imageFileSchemaOk f = false →
      (validateAndProcessFile f s).error = some invalidFileMsg) := by
  refine ⟨?_, by decide, ?_⟩
  · simp [imageFileSchemaOk, ALLOWED_FILE_TYPES, MAX_FILE_SIZE]
  · intro h
    simp [validateAndProcessFile, h]

/-- Witness for C3: a GIF descriptor is rejected with the validation
message. -/
theorem validator_accepts_iff_witness :
    imageFileSchemaOk gifFile = false ∧
    (validateAndProcessFile gifFile init).error = some invalidFileMsg :=
  ⟨rfl, (validator_accepts_iff gifFile init).2.2 rfl⟩

/-- C4: submitting a file the schema rejects sets the validation message
and creates no processing job: the reader is not started, the processor is
not invoked, progress stays at 0, and the status never becomes running. -/
theorem invalid_file_creates_no_job (s : PipelineState) (f : FileDesc)
    (hf : imageFileSchemaOk f = false) (hp : s.progress = 0)
    (hr : s.isProcessing = false) :
    (validateAndProcessFile f s).error = some invalidFileMsg ∧
    (validateAndProcessFile f s).startedReads = s.startedReads ∧
    (validateAndProcessFile f s).startedJobs = s.startedJobs ∧
    (validateAndProcessFile f s).progress = 0 ∧
    (validateAndProcessFile f s).isProcessing = false ∧
    (validateAndProcessFile f s).pendingRead = s.pendingRead := by
  simp [validateAndProcessFile, hf, hp, hr]

/-- Witness for C4: the GIF descriptor, submitted from the idle initial
state. -/
theorem invalid_file_creates_no_job_witness :
    (validateAndProcessFile gifFile init).error = some invalidFileMsg ∧
    (validateAndProcessFile gifFile init).startedReads = init.startedReads ∧
    (validateAndProcessFile gifFile init).startedJobs = init.startedJobs ∧
    (validateAndProcessFile gifFile init).progress = 0 ∧
    (validateAndProcessFile gifFile init).isProcessing = false ∧
    (validateAndProcessFile gifFile init).pendingRead = init.pendingRead :=
  invalid_file_creates_no_job init gifFile rfl rfl rfl

/-- C5: one processor invocation ends in exactly one of success (a fresh
artifact is published and no error is shown), swallowed cancellation (no
error, no new allocation, the displayed result untouched), or surfaced
failure (the failure message, no new allocation); in every case the
`finally` block resets progress to 0 and leaves the running status. -/
theorem processor_invocation_postconditions (s : PipelineState) (u : String)
    (j : Nat) (o : LibOutcome) :
    (processImageFinish j o (processImageStart u s).1).progress = 0 ∧
    (processImageFinish j o (processImageStart u s).1).isProcessing = false ∧
    (match o with
     | .success b =>
         (processImageFinish j o (processImageStart u s).1).processedImage =
           some ((releaseUrlRef (processImageStart u s).1).nextUrlId, b) ∧
         (processImageFinish j o (processImageStart u s).1).error = none
     | .abortError =>
         (processImageFinish j o (processImageStart u s).1).error = none ∧
         (processImageFinish j o (processImageStart u s).1).createdUrls =
           (processImageStart u s).1.createdUrls ∧
         (processImageFinish j o (processImageStart u s).1).processedImage =
           (processImageStart u s).1.processedImage
     | .failure m =>
         (processImageFinish j o (processImageStart u s).1).error =
           some (procFailMsg m) ∧
         (processImageFinish j o (processImageStart u s).1).createdUrls =
           (processImageStart u s).1.createdUrls ∧
         (processImageFinish j o (processImageStart u s).1).processedImage =
           (processImageStart u s).1.processedImage
     | .failureNonError =>
         (processImageFinish j o (processImageStart u s).1).error =
           some procFailGenericMsg ∧
         (processImageFinish j o (processImageStart u s).1).createdUrls =
           (processImageStart u s).1.createdUrls ∧
         (processImageFinish j o (processImageStart u s).1).processedImage =
           (processImageStart u s).1.processedImage) := by
  cases o with
  | success b =>
    exact ⟨rfl, rfl, rfl, (releaseUrlRef_frame (processImageStart u s).1).1⟩
  | abortError => exact ⟨rfl, rfl, rfl, rfl, rfl⟩
  | failure m => exact ⟨rfl, rfl, rfl, rfl, rfl⟩
  | failureNonError => exact ⟨rfl, rfl, rfl, rfl, rfl⟩

/-- C6 counterexample: the claim says the displayed progress is clamped to
at most 100.  The code has no upper clamp: with a callback reporting
`current = 3, total = 2` while a job runs, the displayed bar width is 150. -/
theorem progress_display_exceeds_hundred :
    (processImageStart "img" init).1.isProcessing = true ∧
    displayedWidth (progressCallback 3 2 (processImageStart "img" init).1) = 150 ∧
    ¬ displayedWidth (progressCallback 3 2 (processImageStart "img" init).1) ≤ 100 := by
  have h150 : displayedWidth (progressCallback 3 2 (processImageStart "img" init).1) = 150 := by
    show max 4 ((3 : ℚ) / 2 * 100) = 150
    norm_num
  refine ⟨rfl, h150, ?_⟩
  rw [h150]
  norm_num

/-- C6 amended: the callback stores `current / total * 100` unclamped and
the bar width floors it at 4; whenever the reported fraction is a genuine
fraction (`0 < total` and `current ≤ total`) the displayed value lies in
[4, 100]. -/
theorem progress_display_bounds (current total : ℚ) (s : PipelineState)
    (h0 : 0 < total) (h1 : current ≤ total) :
    4 ≤ displayedWidth (progressCallback current total s) ∧
    displayedWidth (progressCallback current total s) ≤ 100 := by
  constructor
  · exact le_max_left 4 _
  · show max 4 (current / total * 100) ≤ 100
    refine max_le (by norm_num) ?_
    have hdiv : current / total ≤ 1 := (div_le_one h0).mpr h1
    calc current / total * 100 ≤ 1 * 100 :=
          mul_le_mul_of_nonneg_right hdiv (by norm_num)
      _ = 100 := by norm_num

/-- Witness for the amended C6: a half-done callback displays 50. -/
theorem progress_display_bounds_witness :
    4 ≤ displayedWidth (progressCallback 1 2 init) ∧
    displayedWidth (progressCallback 1 2 init) ≤ 100 :=
  progress_display_bounds 1 2 init (by norm_num) (by norm_num)

/-- C7: with no artifact, `handleDownload` is a no-op; with an artifact and
a recorded file name, it leaves state unchanged and offers the file under
the original name with its final extension stripped and `.png` appended. -/
theorem download_action_spec (s : PipelineState) :
    (s.processedImage = none → handleDownload s = (s, none)) ∧
    (∀ u n, s.processedImage = some u → s.fileName = some n →
      handleDownload s = (s, some (stripExt n ++ ".png"))) := by
  constructor
  · intro h
    simp [handleDownload, h]
  · intro u n hu hn
    simp [handleDownload, hu, hn]

/-- Witness for C7: no-op on the empty state; `photo.jpg` downloads as
`photo.png`. -/
theorem download_action_spec_witness :
    handleDownload init = (init, none) ∧
    handleDownload downloadReadyState = (downloadReadyState, some "photo.png") := by
  constructor
  · exact (download_action_spec init).1 rfl
  · have h := (download_action_spec downloadReadyState).2 (0, "blob") "photo.jpg" rfl rfl
    have hs : stripExt "photo.jpg" ++ ".png" = "photo.png" := rfl
    rw [hs] at h
    exact h

/-- C8: clearing while an artifact handle is held revokes the handle, nulls
the ref, and resets progress, status, error and every session field. -/
theorem clear_releases_and_resets (s : PipelineState) (u : ObjectURL)
    (hu : s.processedUrlRef = some u) :
    (clearImage s).processedUrlRef = none ∧
    u.1 ∈ (clearImage s).revokedUrls ∧
    (clearImage s).progress = 0 ∧
    (clearImage s).isProcessing = false ∧
    (clearImage s).error = none ∧
    (clearImage s).image = none ∧
    (clearImage s).processedImage = none ∧
    (clearImage s).fileName = none ∧
    (clearImage s).fileSize = none := by
  obtain ⟨t, hcr, hrv2, hnx, href2, hdr2, hcl⟩ := clearImage_as_release s
  have htu : t.processedUrlRef = some u := href2.trans hu
  rw [hcl]
  exact ⟨releaseUrlRef_ref_none htu, mem_revoked_releaseUrlRef htu,
    rfl, rfl, rfl, rfl, rfl, rfl, rfl⟩

/-- Witness for C8: clearing the state left by one successful run. -/
theorem clear_releases_and_resets_witness :
    (clearImage sampleSuccessState).processedUrlRef = none ∧
    0 ∈ (clearImage sampleSuccessState).revokedUrls ∧
    (clearImage sampleSuccessState).progress = 0 ∧
    (clearImage sampleSuccessState).isProcessing = false ∧
    (clearImage sampleSuccessState).error = none ∧
    (clearImage sampleSuccessState).image = none ∧
    (clearImage sampleSuccessState).processedImage = none ∧
    (clearImage sampleSuccessState).fileName = none ∧
    (clearImage sampleSuccessState).fileSize = none :=
  clear_releases_and_resets sampleSuccessState (0, "blobPhoto") rfl

/-- C9: when the byte read of an accepted file fails, the read-failure
message (distinct from the validation message) is reported and no job is
started; jobs are started exactly by the load callback, i.e. only after a
successful read. -/
theorem read_failure_is_terminal (s : PipelineState) (f : FileDesc)
    (hf : imageFileSchemaOk f = true) :
    (readerOnError (validateAndProcessFile f s)).error = some readFailMsg ∧
    readFailMsg ≠ invalidFileMsg ∧
    (validateAndProcessFile f s).startedJobs = s.startedJobs ∧
    (readerOnError (validateAndProcessFile f s)).startedJobs = s.startedJobs ∧
    (readerOnError (validateAndProcessFile f s)).isProcessing = s.isProcessing ∧
    (∀ url t, ((readerOnLoad url t).1).startedJobs = t.startedJobs + 1) := by
  refine ⟨rfl, by decide, ?_, ?_, ?_, ?_⟩
  · simp [validateAndProcessFile, hf]
  · simp [readerOnError, validateAndProcessFile, hf]
  · simp [readerOnError, validateAndProcessFile, hf]
  · intro url t
    show ((processImageStart url
      { t with image := some url, pendingRead := none }).1).startedJobs =
        t.startedJobs + 1
    rw [processImageStart_eq]

/-- Witness for C9: a failing read of the accepted `a.png`. -/
theorem read_failure_is_terminal_witness :
    (readerOnError (validateAndProcessFile fileA init)).error = some readFailMsg ∧
    readFailMsg ≠ invalidFileMsg ∧
    (validateAndProcessFile fileA init).startedJobs = init.startedJobs ∧
    (readerOnError (validateAndProcessFile fileA init)).startedJobs = init.startedJobs ∧
    (readerOnError (validateAndProcessFile fileA init)).isProcessing = init.isProcessing ∧
    (∀ url t, ((readerOnLoad url t).1).startedJobs = t.startedJobs + 1) :=
  read_failure_is_terminal init fileA rfl

/-- C10: a failed validation replaces only the error message; every other
field of the prior session and result keeps its value. -/
theorem invalid_submit_only_sets_error (s : PipelineState) (f : FileDesc)
    (hf : imageFileSchemaOk f = false) :
    validateAndProcessFile f s = { s with error := some invalidFileMsg } := by
  simp [validateAndProcessFile, hf]

/-- Witness for C10: submitting the GIF over a displayed successful run. -/
theorem invalid_submit_only_sets_error_witness :
    validateAndProcessFile gifFile sampleSuccessState =
      { sampleSuccessState with error := some invalidFileMsg } :=
  invalid_submit_only_sets_error sampleSuccessState gifFile rfl

end ImageUploader
